import Mathlib

/-!
Shallow embedding of the femite-backend e-commerce core (Rust/axum/sqlx/Postgres)
for checking the specification claims about inventory reservation, checkout,
direct payment, and Stripe-webhook reconciliation.

Modelling conventions:
* Uuids and external string identifiers (Stripe event ids, payment-intent ids)
  are modelled as `Nat`; the database issues fresh ids from a counter `nextId`.
* `chrono` timestamps are modelled as `Int` instants (`Db.now`); the reservation
  TTL argument `expires_in_minutes : i32` is added directly to `now`.
* SQL tables are lists of rows; a query's `WHERE`/`JOIN`/aggregate logic is
  translated clause by clause into `List.filter`/`List.find?`/sums.
* `rust_decimal::Decimal` (exact fixed-point) and the exact values held in
  Postgres `numeric` columns are modelled by `Decimal`, an executable exact
  rational (normalized fraction over `Int`/`Nat`, so that the kernel can
  evaluate every operation); the `f64` values produced by
  `Decimal::try_into::<f64>()` are modelled by their exact rational value
  after correctly rounded binary64 conversion (`decimalToF64`).
* Status and change-type columns are stored as text in Postgres via the total,
  injective `ToString`/`from_str` maps of `model/order.rs`, `model/payment.rs`
  and `model/stock.rs`; the embedding works directly in the enum domain.
* i32/i64 quantities are modelled as `Int`; no claim involves values anywhere
  near the overflow boundary, so wrap-around is not modelled.
-/

namespace Femite

/-- Order status enum from `model/order.rs` (stored as text via its `ToString`). -/
inductive OrderStatus where
  | cart
  | pendingPayment
  | paymentProcessing
  | paid
  | processing
  | shipped
  | delivered
  | cancelled
  | refunded
deriving DecidableEq

/-- Payment status enum from `model/payment.rs`. -/
inductive PaymentStatus where
  | pending
  | processing
  | succeeded
  | failed
  | canceled
deriving DecidableEq

/-- Inventory change type enum from `model/stock.rs`. -/
inductive InventoryChangeType where
  | stockIn
  | stockOut
  | reserved
  | unreserved
  | sold
deriving DecidableEq

/-- The distinct free-text notes written by `StockRepository` into
`inventory_logs.notes` (the `format!` strings of `stock_repository.rs`). -/
inductive LogNote where
  | reservedUnitsForCart (q : Int)
  | unreservedUnitsFromCart (q : Int)
  | expiredReservationCleanup
deriving DecidableEq

/-- Fuel-bounded Euclidean gcd on naturals, structurally recursive so that the
kernel evaluates it; with fuel above the smaller argument it computes the gcd. -/
def gcdFuel : Nat → Nat → Nat → Nat
  | 0, a, _ => a
  | fuel + 1, a, b => if b = 0 then a else gcdFuel fuel b (a % b)

/-- Exact rational number as a normalized fraction, standing in for
`rust_decimal::Decimal` values and for the exact values of Postgres `numeric`
columns. All operations are plain `Int`/`Nat` arithmetic so concrete states
evaluate inside the kernel. The denominator of every value built by the
operations below is positive and coprime to the numerator, so structural
equality is value equality. -/
structure Decimal where
  num : Int
  den : Nat
deriving DecidableEq

namespace Decimal

/-- Build the normalized fraction `n / d`. -/
def norm (n : Int) (d : Nat) : Decimal :=
  let g := gcdFuel (d + 1) n.natAbs d
  if g = 0 then ⟨n, d⟩ else ⟨n / (g : Int), d / g⟩

/-- Embed an integer. -/
def ofInt (n : Int) : Decimal := ⟨n, 1⟩

/-- Exact addition. -/
def add (a b : Decimal) : Decimal :=
  norm (a.num * (b.den : Int) + b.num * (a.den : Int)) (a.den * b.den)

/-- Negation. -/
def neg (a : Decimal) : Decimal := ⟨-a.num, a.den⟩

/-- Exact subtraction. -/
def sub (a b : Decimal) : Decimal := a.add b.neg

/-- Exact multiplication by an integer (a `Decimal * Decimal::new(qty, 0)`
product in the source). -/
def mulInt (a : Decimal) (k : Int) : Decimal := norm (a.num * k) a.den

/-- Value comparison by cross multiplication (denominators are positive). -/
def lt (a b : Decimal) : Prop := a.num * (b.den : Int) < b.num * (a.den : Int)

/-- Value comparison by cross multiplication (denominators are positive). -/
def le (a b : Decimal) : Prop := a.num * (b.den : Int) ≤ b.num * (a.den : Int)

instance (a b : Decimal) : Decidable (a.lt b) := by unfold lt; infer_instance

instance (a b : Decimal) : Decidable (a.le b) := by unfold le; infer_instance

/-- Floor to an integer. -/
def floor (a : Decimal) : Int := Int.fdiv a.num (a.den : Int)

/-- Exact multiplication by `2 ^ k` for an integer `k`. -/
def mulPow2 (a : Decimal) (k : Int) : Decimal :=
  if 0 ≤ k then norm (a.num * ((2 : Int) ^ k.toNat)) a.den
  else norm a.num (a.den * 2 ^ (-k).toNat)

end Decimal

/-- Row of `products` (`model/product.rs`); `price` is a `rust_decimal::Decimal`,
modelled exactly as `Decimal`. -/
structure Product where
  pid : Nat
  price : Decimal
  stock : Int
  lowStockThreshold : Option Int
  trackInventory : Bool
deriving DecidableEq

/-- Row of `stock_reservations` (`model/stock.rs`). -/
structure StockReservation where
  rid : Nat
  productId : Nat
  cartId : Nat
  quantity : Int
  reservedAt : Int
  expiresAt : Int
deriving DecidableEq

/-- Row of `inventory_logs` (`model/stock.rs`). -/
structure InventoryLog where
  lid : Nat
  productId : Nat
  changeType : InventoryChangeType
  quantityChange : Int
  previousStock : Int
  newStock : Int
  referenceId : Option Nat
  note : Option LogNote
deriving DecidableEq

/-- Row of `carts` (`model/cart.rs`). -/
structure Cart where
  cid : Nat
  userId : Nat
deriving DecidableEq

/-- Row of `cart_items` (`model/cart.rs`). -/
structure CartItem where
  ciid : Nat
  cartId : Nat
  productId : Nat
  quantity : Int
deriving DecidableEq

/-- Row of `orders` (`model/order.rs`). -/
structure Order where
  oid : Nat
  userId : Nat
  total : Decimal
  status : OrderStatus
  paymentId : Option Nat
  createdAt : Int
deriving DecidableEq

/-- Row of `order_items` (`model/order.rs`). -/
structure OrderItem where
  oiid : Nat
  orderId : Nat
  productId : Nat
  quantity : Int
  price : Decimal
deriving DecidableEq

/-- Row of `payments` (`model/payment.rs`); `intentId` models the Stripe
payment-intent identifier string. -/
structure Payment where
  payid : Nat
  orderId : Nat
  intentId : Nat
  amount : Decimal
  status : PaymentStatus
deriving DecidableEq

/-- Webhook event type dispatched on by `handle_stripe_webhook`
(`routes/payment.rs`): the two handled Stripe types plus a catch-all. -/
inductive EventType where
  | paymentIntentSucceeded
  | paymentIntentFailed
  | other (tag : Nat)
deriving DecidableEq

/-- A Stripe webhook envelope after successful JSON parsing: the handler reads
`event.id`, `event.type` and `event.data.object.id` (`routes/payment.rs`). -/
structure StripeEvent where
  eventId : Nat
  eventType : EventType
  objectId : Option Nat
deriving DecidableEq

/-- Row of `payment_webhooks` (`model/payment.rs`); `payload` is the stored
event envelope. -/
structure PaymentWebhook where
  wid : Nat
  eventId : Nat
  eventType : EventType
  processed : Bool
  payload : StripeEvent
  errorMessage : Option Nat
deriving DecidableEq

/-- The relational state: one list per table, the clock, and a fresh-id
counter standing for `Uuid::new_v4()`. -/
structure Db where
  products : List Product
  reservations : List StockReservation
  invLogs : List InventoryLog
  carts : List Cart
  cartItems : List CartItem
  orders : List Order
  orderItems : List OrderItem
  payments : List Payment
  webhooks : List PaymentWebhook
  now : Int
  nextId : Nat
deriving DecidableEq

/-- Fuel-bounded base-2 logarithm on naturals (structurally recursive so that
kernel evaluation works); with fuel at least `n` it computes the floor log. -/
def log2Fuel : Nat → Nat → Nat
  | 0, _ => 0
  | fuel + 1, n => if n < 2 then 0 else log2Fuel fuel (n / 2) + 1

/-- Power of two as an exact rational value, for integer exponents. -/
def pow2z (e : Int) : Decimal :=
  if 0 ≤ e then ⟨(2 : Int) ^ e.toNat, 1⟩ else ⟨1, 2 ^ (-e).toNat⟩

/-- Round an exact rational to the nearest integer, ties to even (the IEEE 754
default rounding). -/
def roundHalfEven (q : Decimal) : Int :=
  let f := q.floor
  let r := q.sub (.ofInt f)
  if r.lt ⟨1, 2⟩ then f
  else if Decimal.lt ⟨1, 2⟩ r then f + 1
  else if f % 2 = 0 then f else f + 1

/-- Floor of the base-2 logarithm of a positive exact rational. -/
def ratLog2Floor (q : Decimal) : Int :=
  if q.lt ⟨1, 1⟩ then
    let j := log2Fuel 4096 (q.den / q.num.toNat)
    if (pow2z (-(j : Int))).le q then -(j : Int) else -(j : Int) - 1
  else
    (log2Fuel 4096 (q.num.toNat / q.den) : Int)

/-- Exact rational value of the binary64 (f64) nearest a positive rational:
scale so the significand has 53 bits, round ties-to-even, scale back. -/
def roundF64Pos (q : Decimal) : Decimal :=
  let e : Int := ratLog2Floor q - 52
  (Decimal.ofInt (roundHalfEven (q.mulPow2 (-e)))).mulPow2 e

/-- Models the `Decimal`-to-`f64` conversion `total.try_into().unwrap_or(0.0)`
in `OrderService::create_order_from_cart` (order_service.rs), followed by
persistence of that f64: the result is the exact rational value of the
correctly rounded binary64. Valid in the normal range of f64 (all values
arising in this development); the further Postgres `float8`-to-`numeric` cast
renders the double with shortest round-trip digits and can only lose more
precision, never restore the exact decimal. -/
def decimalToF64 (q : Decimal) : Decimal :=
  if q.num = 0 then ⟨0, 1⟩
  else if 0 < q.num then roundF64Pos q
  else (roundF64Pos q.neg).neg

/-- Translation of `SELECT * FROM products WHERE id = $1` with `fetch_optional`
(`ProductRepository::find_by_id`). -/
def findProduct (db : Db) (pid : Nat) : Option Product :=
  db.products.find? (fun p => p.pid == pid)

/-- Sum of quantities of reservations of `pid` that are still live
(`sr.expires_at > now()`), over an explicit reservation list and clock. -/
def liveSumAux (rs : List StockReservation) (now : Int) (pid : Nat) : Int :=
  ((rs.filter (fun r => r.productId == pid && decide (now < r.expiresAt))).map
    (fun r => r.quantity)).sum

/-- The `COALESCE(SUM(sr.quantity), 0)` aggregate of the availability queries in
`stock_repository.rs`: total quantity currently reserved and unexpired. -/
def liveReservedSum (db : Db) (pid : Nat) : Int :=
  liveSumAux db.reservations db.now pid

/-- Translation of `StockRepository::get_available_stock`: on-hand stock minus
live reserved quantity, `none` when the product does not exist. This query has
no `track_inventory` filter. -/
def get_available_stock (db : Db) (pid : Nat) : Option Int :=
  (findProduct db pid).map (fun p => p.stock - liveReservedSum db pid)

/-- Translation of `StockRepository::create_reservation` (stock_repository.rs).
The availability query returns a row only when the product exists and
`track_inventory = true`; if `available < quantity` the transaction rolls back
with no row written; otherwise the reservation row and one `reserved`
inventory-log row (quantity_change `-quantity`, previous/new stock `0/0`) are
inserted atomically. -/
def create_reservation (db : Db) (productId cartId : Nat) (quantity : Int)
    (expiresInMinutes : Int) : Option StockReservation × Db :=
  match findProduct db productId with
  | none => (none, db)
  | some p =>
    if !p.trackInventory then (none, db)
    else
      let available := p.stock - liveReservedSum db productId
      if available < quantity then (none, db)
      else
        let r : StockReservation :=
          { rid := db.nextId, productId := productId, cartId := cartId,
            quantity := quantity, reservedAt := db.now,
            expiresAt := db.now + expiresInMinutes }
        let lg : InventoryLog :=
          { lid := db.nextId + 1, productId := productId,
            changeType := .reserved, quantityChange := -quantity,
            previousStock := 0, newStock := 0, referenceId := some cartId,
            note := some (.reservedUnitsForCart quantity) }
        (some r,
          { db with
            reservations := db.reservations ++ [r],
            invLogs := db.invLogs ++ [lg],
            nextId := db.nextId + 2 })

/-- Translation of `StockRepository::cancel_reservation`: delete the row if it
exists and append one `unreserved` log entry with positive quantity_change. -/
def cancel_reservation (db : Db) (rid : Nat) : Bool × Db :=
  match db.reservations.find? (fun r => r.rid == rid) with
  | none => (false, db)
  | some res =>
      let lg : InventoryLog :=
        { lid := db.nextId, productId := res.productId,
          changeType := .unreserved, quantityChange := res.quantity,
          previousStock := 0, newStock := 0, referenceId := some res.cartId,
          note := some (.unreservedUnitsFromCart res.quantity) }
      (true,
        { db with
          reservations := db.reservations.filter (fun r => !(r.rid == rid)),
          invLogs := db.invLogs ++ [lg],
          nextId := db.nextId + 1 })

/-- Translation of `StockRepository::cleanup_expired_reservations`: delete all
rows with `expires_at <= now()` and append one `unreserved` log per deleted
row; returns the deleted count. -/
def cleanup_expired_reservations (db : Db) : Int × Db :=
  let expired := db.reservations.filter (fun r => decide (r.expiresAt ≤ db.now))
  let logs := expired.enum.map (fun ir =>
    { lid := db.nextId + ir.1, productId := ir.2.productId,
      changeType := .unreserved, quantityChange := ir.2.quantity,
      previousStock := 0, newStock := 0, referenceId := some ir.2.cartId,
      note := some .expiredReservationCleanup : InventoryLog })
  ((expired.length : Int),
    { db with
      reservations := db.reservations.filter (fun r => !decide (r.expiresAt ≤ db.now)),
      invLogs := db.invLogs ++ logs,
      nextId := db.nextId + expired.length })

/-- Translation of `ProductRepository::update_stock` (product_repository.rs,
lines 143-149): `UPDATE products SET stock = $1 WHERE id = $2 RETURNING *`.
It writes NO inventory-log row. `fetch_one` errors when the product is absent,
modelled by the `none` result with the state unchanged. -/
def product_update_stock (db : Db) (pid : Nat) (stock : Int) :
    Option Product × Db :=
  match findProduct db pid with
  | none => (none, db)
  | some p =>
      (some { p with stock := stock },
        { db with
          products := db.products.map
            (fun q => if q.pid == pid then { q with stock := stock } else q) })

/-- Translation of `OrderRepository::update_status`: set the status of the
order row and return the updated row (`fetch_one`; `none` models the row-not-
found error). The status string written is the image of the enum under the
`ToString` of `model/order.rs`. -/
def order_update_status (db : Db) (oid : Nat) (status : OrderStatus) :
    Option Order × Db :=
  match db.orders.find? (fun o => o.oid == oid) with
  | none => (none, db)
  | some o =>
      (some { o with status := status },
        { db with
          orders := db.orders.map
            (fun q => if q.oid == oid then { q with status := status } else q) })

/-- Checkout failure taxonomy of `OrderService::create_order_from_cart`: in the
source all four are `AppError::Validation(msg)` with distinct messages (no cart
found, cart is empty, product `id` not found, insufficient stock naming the
product with its available and requested amounts). -/
inductive CheckoutErr where
  | noCartFound
  | cartEmpty
  | productNotFound (productId : Nat)
  | insufficientStock (productId : Nat) (available requested : Int)
deriving DecidableEq

/-- Response DTO of a successful checkout (`dtos/order.rs`). -/
structure CreateOrderResponse where
  id : Nat
  total : Decimal
  status : OrderStatus
  itemsCount : Nat
deriving DecidableEq

/-- The validation loop of `create_order_from_cart` (order_service.rs): walk
the cart items in order; a missing product or `product.stock < item.quantity`
aborts with the corresponding error; otherwise accumulate the exact `Decimal`
total `price * quantity` and snapshot each unit price. -/
def checkout_validate (db : Db) :
    List CartItem → Except CheckoutErr (Decimal × List (CartItem × Decimal))
  | [] => .ok (.ofInt 0, [])
  | item :: rest =>
    match findProduct db item.productId with
    | none => .error (.productNotFound item.productId)
    | some product =>
      if product.stock < item.quantity then
        .error (.insufficientStock product.pid product.stock item.quantity)
      else
        match checkout_validate db rest with
        | .error e => .error e
        | .ok (total, checked) =>
            .ok ((product.price.mulInt item.quantity).add total,
              (item, product.price) :: checked)

/-- The exact `Decimal` order total computed by `create_order_from_cart` for a
user, before the `f64` conversion at the `create_order` call; `none` when
checkout would fail before reaching that point. -/
def checkout_exact_total (db : Db) (userId : Nat) : Option Decimal :=
  match db.carts.find? (fun c => c.userId == userId) with
  | none => none
  | some cart =>
    let items := db.cartItems.filter (fun ci => ci.cartId == cart.cid)
    if items.isEmpty then none
    else
      match checkout_validate db items with
      | .error _ => none
      | .ok (total, _) => some total

/-- Translation of `OrderService::create_order_from_cart` (order_service.rs):
fetch the user's cart, reject an empty cart, validate every item against raw
on-hand stock while summing the exact total, then insert the order row (status
`pending_payment`, total converted to `f64` by `try_into().unwrap_or(0.0)`),
insert one order-item row per cart item (unit price also through `f64`), and
clear the cart. All failures occur before the first insert. -/
def create_order_from_cart (db : Db) (userId : Nat) :
    Except CheckoutErr CreateOrderResponse × Db :=
  match db.carts.find? (fun c => c.userId == userId) with
  | none => (.error .noCartFound, db)
  | some cart =>
    let items := db.cartItems.filter (fun ci => ci.cartId == cart.cid)
    if items.isEmpty then (.error .cartEmpty, db)
    else
      match checkout_validate db items with
      | .error e => (.error e, db)
      | .ok (total, checked) =>
        let order : Order :=
          { oid := db.nextId, userId := userId,
            total := decimalToF64 total, status := .pendingPayment,
            paymentId := none, createdAt := db.now }
        let newItems := checked.enum.map (fun ic =>
          { oiid := db.nextId + 1 + ic.1, orderId := order.oid,
            productId := ic.2.1.productId, quantity := ic.2.1.quantity,
            price := decimalToF64 ic.2.2 : OrderItem })
        (.ok
          { id := order.oid, total := order.total, status := order.status,
            itemsCount := items.length },
          { db with
            orders := db.orders ++ [order],
            orderItems := db.orderItems ++ newItems,
            cartItems := db.cartItems.filter (fun ci => !(ci.cartId == cart.cid)),
            nextId := db.nextId + 1 + checked.length })

/-- One iteration of the stock-reduction loop of `OrderService::pay_order`
(order_service.rs, lines 200-205): re-fetch the item's product and, when it
exists, write `product.stock - item.quantity` through
`ProductRepository::update_stock`; a missing product is silently skipped
(`if let Some(product) = ...`). -/
def pay_decrement_step (acc : Db) (i : OrderItem) : Db :=
  match findProduct acc i.productId with
  | some p => (product_update_stock acc p.pid (p.stock - i.quantity)).2
  | none => acc

/-- Translation of `OrderService::pay_order` (order_service.rs, lines 177-212):
restrict to the caller's orders (`find_by_user`), find the requested order,
require status `pending_payment`, check every item against raw on-hand stock,
then decrement each item's product stock through
`ProductRepository::update_stock` (which writes no inventory log) and mark the
order `paid`. Every failure returns `Ok(None)` with no state change. -/
def pay_order (db : Db) (userId orderId : Nat) : Option Order × Db :=
  match (db.orders.filter (fun o => o.userId == userId)).find?
      (fun o => o.oid == orderId) with
  | none => (none, db)
  | some order =>
    if order.status ≠ .pendingPayment then (none, db)
    else
      let items := db.orderItems.filter (fun i => i.orderId == order.oid)
      if items.all (fun i =>
          match findProduct db i.productId with
          | some p => decide (i.quantity ≤ p.stock)
          | none => false) then
        let db2 := items.foldl pay_decrement_step db
        let db3 := (order_update_status db2 orderId .paid).2
        (some { order with status := .paid }, db3)
      else (none, db)

/-- Payment-service failure cases relevant to the reconciliation handlers: the
only failure the webhook handlers can hit locally is a database error from
`OrderRepository::update_status` on a missing order. -/
inductive PaymentErr where
  | database
deriving DecidableEq

/-- Translation of `PaymentService::handle_payment_succeeded`
(payment_service.rs, lines 104-129): set every payment row with the given
Stripe intent id to `succeeded` (`UPDATE ... WHERE stripe_payment_intent_id`),
and if one was found, set its order's status to `paid`. The source comment at
lines 121-125 notes that converting stock reservations to sales and updating
inventory would happen here; the function performs neither. Each repository
call commits separately (no shared transaction), so the payment update
persists even when the order update then fails. -/
def handle_payment_succeeded (db : Db) (intentId : Nat) :
    Except PaymentErr Unit × Db :=
  match db.payments.find? (fun p => p.intentId == intentId) with
  | none => (.ok (), db)
  | some payment =>
    let db1 :=
      { db with
        payments := db.payments.map (fun p =>
          if p.intentId == intentId then { p with status := .succeeded } else p) }
    match order_update_status db1 payment.orderId .paid with
    | (none, db2) => (.error .database, db2)
    | (some _, db2) => (.ok (), db2)

/-- Translation of `PaymentService::handle_payment_failed`: set the payment
rows with the intent id to `failed` and revert the order to `pending_payment`. -/
def handle_payment_failed (db : Db) (intentId : Nat) :
    Except PaymentErr Unit × Db :=
  match db.payments.find? (fun p => p.intentId == intentId) with
  | none => (.ok (), db)
  | some payment =>
    let db1 :=
      { db with
        payments := db.payments.map (fun p =>
          if p.intentId == intentId then { p with status := .failed } else p) }
    match order_update_status db1 payment.orderId .pendingPayment with
    | (none, db2) => (.error .database, db2)
    | (some _, db2) => (.ok (), db2)

/-- Translation of `PaymentRepository::create_webhook_record`
(payment_repository.rs, lines 143-167): insert a `payment_webhooks` row with
`processed` defaulting to false and no error message. Modelled from the spec:
the table schema (its migration is not under src/) declares
`external_event_id` unique as the dedupe key, so an insert with an already
stored event id fails with a database error and writes nothing. -/
def create_webhook_record (db : Db) (ev : StripeEvent) :
    Except PaymentErr PaymentWebhook × Db :=
  if db.webhooks.any (fun w => w.eventId == ev.eventId) then (.error .database, db)
  else
    let w : PaymentWebhook :=
      { wid := db.nextId, eventId := ev.eventId, eventType := ev.eventType,
        processed := false, payload := ev, errorMessage := none }
    (.ok w, { db with webhooks := db.webhooks ++ [w], nextId := db.nextId + 1 })

/-- HTTP outcomes of the webhook route: 200 with a received acknowledgement, or
500 when storing the webhook record fails. (An unparseable body is rejected
with 400 before any of this; the embedding takes the already parsed event.) -/
inductive WebhookResponse where
  | received
  | storeFailed
deriving DecidableEq

/-- Translation of `handle_stripe_webhook` (routes/payment.rs, lines 153-216):
persist the parsed event first; on a storage failure answer 500 and stop.
Otherwise dispatch on the event type, invoking the payment service for the two
handled intent events (processing errors are logged and swallowed), and answer
200. Nothing is ever written back to the stored webhook row:
`PaymentRepository::mark_webhook_processed` has no caller. -/
def handle_stripe_webhook (db : Db) (ev : StripeEvent) : WebhookResponse × Db :=
  match create_webhook_record db ev with
  | (.error _, db1) => (.storeFailed, db1)
  | (.ok _, db1) =>
    match ev.eventType with
    | .paymentIntentSucceeded =>
      match ev.objectId with
      | some intentId => (.received, (handle_payment_succeeded db1 intentId).2)
      | none => (.received, db1)
    | .paymentIntentFailed =>
      match ev.objectId with
      | some intentId => (.received, (handle_payment_failed db1 intentId).2)
      | none => (.received, db1)
    | .other _ => (.received, db1)

/-- The `payment_webhooks` row inserted for an event by
`PaymentRepository::create_webhook_record`. -/
def webhook_row (db : Db) (ev : StripeEvent) : PaymentWebhook :=
  { wid := db.nextId, eventId := ev.eventId, eventType := ev.eventType,
    processed := false, payload := ev, errorMessage := none }

/-- The core operations named by the invariant claim: reservation create,
cancel, and expiry sweep, checkout, direct pay, webhook reconciliation, and
the passage of wall-clock time (reservations expire by clock comparison). -/
inductive CoreOp where
  | reserve (productId cartId : Nat) (quantity : Int) (expiresInMinutes : Int)
  | cancel (reservationId : Nat)
  | cleanupExpired
  | checkout (userId : Nat)
  | pay (userId orderId : Nat)
  | webhook (ev : StripeEvent)
  | tick (minutes : Nat)
deriving DecidableEq

/-- State transition of one core operation (return values discarded). -/
def applyOp (db : Db) : CoreOp → Db
  | .reserve p c q m => (create_reservation db p c q m).2
  | .cancel rid => (cancel_reservation db rid).2
  | .cleanupExpired => (cleanup_expired_reservations db).2
  | .checkout u => (create_order_from_cart db u).2
  | .pay u oid => (pay_order db u oid).2
  | .webhook ev => (handle_stripe_webhook db ev).2
  | .tick m => { db with now := db.now + (m : Int) }

/-- Run a sequence of core operations from a state. -/
def runOps (db : Db) (ops : List CoreOp) : Db :=
  ops.foldl applyOp db

/-- Total quantity a list of order items carries for one product. -/
def itemsQty (items : List OrderItem) (pid : Nat) : Int :=
  (items.map (fun i => if i.productId == pid then i.quantity else 0)).sum

/-- Total quantity the items of order `oid` carry for product `pid`. -/
def orderQtyFor (db : Db) (oid pid : Nat) : Int :=
  itemsQty (db.orderItems.filter (fun i => i.orderId == oid)) pid

/-- Primary-key uniqueness of `products.id`, inherited from the Postgres
schema; no core operation ever inserts a product row, so it is preserved. -/
def ProductsWF (db : Db) : Prop :=
  (db.products.map (fun p => p.pid)).Nodup

/-- Primary-key well-formedness inherited from the Postgres schema: product
ids and order ids are unique. -/
def DbWF (db : Db) : Prop :=
  ProductsWF db ∧ (db.orders.map (fun o => o.oid)).Nodup

/-- Every stored reservation has a strictly positive quantity (the
`StockReservation` data-model annotation of the spec). -/
def ReservationsPositive (db : Db) : Prop :=
  ∀ r ∈ db.reservations, 0 < r.quantity

/-- The stock-ledger safety predicate: for every inventory-tracked product the
live (unexpired) reserved quantity fits inside the recorded on-hand stock.
Because every sale in the modelled operation set decrements on-hand stock by
the sold quantity at sale time, this is the same statement as the claimed
`live reservations + sold since last reset <= stock recorded at the reset`. -/
def StockInvariant (db : Db) : Prop :=
  ∀ p ∈ db.products, p.trackInventory = true → liveReservedSum db p.pid ≤ p.stock

/-- Side conditions under which one core operation preserves the stock
invariant: a reservation is requested with a positive quantity, and a direct
payment fits within reservation-adjusted availability for every tracked
product (all other operations are unconditionally safe). -/
def OpSafe (db : Db) : CoreOp → Prop
  | .reserve _ _ q _ => 0 < q
  | .pay _ oid =>
      ∀ p ∈ db.products, p.trackInventory = true →
        liveReservedSum db p.pid + orderQtyFor db oid p.pid ≤ p.stock
  | _ => True

/-- Every operation along a run satisfies its side condition in the state it
is applied to. -/
def SafeOps : Db → List CoreOp → Prop
  | _, [] => True
  | db, op :: rest => OpSafe db op ∧ SafeOps (applyOp db op) rest

instance (db : Db) : Decidable (ProductsWF db) := by
  unfold ProductsWF; infer_instance

instance (db : Db) : Decidable (DbWF db) := by
  unfold DbWF ProductsWF; infer_instance

instance (db : Db) : Decidable (ReservationsPositive db) := by
  unfold ReservationsPositive; infer_instance

instance (db : Db) : Decidable (StockInvariant db) := by
  unfold StockInvariant; infer_instance

instance decOpSafe (db : Db) (op : CoreOp) : Decidable (OpSafe db op) := by
  cases op <;> (unfold OpSafe; infer_instance)

instance decSafeOps : (db : Db) → (ops : List CoreOp) → Decidable (SafeOps db ops)
  | _, [] => .isTrue trivial
  | db, op :: rest =>
      haveI := decSafeOps (applyOp db op) rest
      inferInstanceAs (Decidable (OpSafe db op ∧ SafeOps (applyOp db op) rest))

/-! Concrete sample states, used by witness and counterexample theorems. -/

/-- A tracked product with five units on hand and unit price 10. -/
def sampleProduct : Product :=
  { pid := 1, price := ⟨10, 1⟩, stock := 5, lowStockThreshold := none,
    trackInventory := true }

/-- State with one tracked product (stock 5), a cart for user 3 holding five
units of it, and every other table empty. -/
def sampleDb : Db :=
  { products := [sampleProduct], reservations := [], invLogs := [],
    carts := [{ cid := 2, userId := 3 }],
    cartItems := [{ ciid := 4, cartId := 2, productId := 1, quantity := 5 }],
    orders := [], orderItems := [], payments := [], webhooks := [],
    now := 0, nextId := 100 }

/-- State where user 7 has a cart with no items in it. -/
def emptyCartDb : Db :=
  { sampleDb with carts := [{ cid := 2, userId := 7 }], cartItems := [] }

/-- State with a `pending_payment` order (id 10) of user 3 over three units of
the sample product, and an empty inventory log. -/
def pendingOrderDb : Db :=
  { products := [sampleProduct], reservations := [], invLogs := [],
    carts := [], cartItems := [],
    orders := [{ oid := 10, userId := 3, total := ⟨30, 1⟩,
                 status := .pendingPayment, paymentId := none, createdAt := 0 }],
    orderItems := [{ oiid := 11, orderId := 10, productId := 1, quantity := 3,
                     price := ⟨10, 1⟩ }],
    payments := [], webhooks := [], now := 0, nextId := 100 }

/-- State with order 10 in `payment_processing`, a pending payment on Stripe
intent 7, and a live reservation of two units of the sample product. -/
def paymentDb : Db :=
  { pendingOrderDb with
    reservations := [{ rid := 20, productId := 1, cartId := 2, quantity := 2,
                       reservedAt := 0, expiresAt := 60 }],
    orders := [{ oid := 10, userId := 3, total := ⟨30, 1⟩,
                 status := .paymentProcessing, paymentId := none, createdAt := 0 }],
    payments := [{ payid := 30, orderId := 10, intentId := 7, amount := ⟨30, 1⟩,
                   status := .pending }] }

/-- A parsed `payment_intent.succeeded` Stripe event for intent 7, event id 5. -/
def sampleEvent : StripeEvent :=
  { eventId := 5, eventType := .paymentIntentSucceeded, objectId := some 7 }

/-- State whose cart holds one unit of a product priced 90071992547409.91, a
value an f64 cannot represent. -/
def bigPriceDb : Db :=
  { sampleDb with
    products := [{ pid := 1, price := ⟨9007199254740991, 100⟩, stock := 5,
                   lowStockThreshold := none, trackInventory := true }],
    cartItems := [{ ciid := 4, cartId := 2, productId := 1, quantity := 1 }] }

/-! Helper lemmas about sums over filtered lists and about which parts of the
state each operation can touch. -/

theorem sum_map_filter_le {α : Type} (p q : α → Bool) (f : α → Int) :
    ∀ l : List α, (∀ x ∈ l, q x = true → p x = true) → (∀ x ∈ l, 0 ≤ f x) →
      ((l.filter q).map f).sum ≤ ((l.filter p).map f).sum := by
  intro l
  induction l with
  | nil => simp
  | cons a t ih =>
    intro hsub hpos
    have ht := ih (fun x hx => hsub x (List.mem_cons_of_mem a hx))
      (fun x hx => hpos x (List.mem_cons_of_mem a hx))
    have ha : 0 ≤ f a := hpos a (List.mem_cons_self a t)
    by_cases hq : q a = true
    · have hp : p a = true := hsub a (List.mem_cons_self a t) hq
      simp only [List.filter_cons, hq, hp, if_true, List.map_cons, List.sum_cons]
      omega
    · by_cases hp : p a = true
      · rw [List.filter_cons, List.filter_cons, if_pos hp, if_neg hq,
          List.map_cons, List.sum_cons]
        omega
      · rw [List.filter_cons, List.filter_cons, if_neg hp, if_neg hq]
        exact ht

theorem liveSumAux_append (rs1 rs2 : List StockReservation) (now : Int) (pid : Nat) :
    liveSumAux (rs1 ++ rs2) now pid = liveSumAux rs1 now pid + liveSumAux rs2 now pid := by
  unfold liveSumAux
  rw [List.filter_append, List.map_append, List.sum_append]

theorem liveSumAux_singleton (r : StockReservation) (now : Int) (pid : Nat) :
    liveSumAux [r] now pid
      = if r.productId == pid && decide (now < r.expiresAt) then r.quantity else 0 := by
  unfold liveSumAux
  by_cases h : (r.productId == pid && decide (now < r.expiresAt)) = true
  · simp [List.filter_cons, h]
  · simp [List.filter_cons, h]

theorem liveSumAux_filter_le (rs : List StockReservation) (g : StockReservation → Bool)
    (now : Int) (pid : Nat) (hpos : ∀ r ∈ rs, 0 ≤ r.quantity) :
    liveSumAux (rs.filter g) now pid ≤ liveSumAux rs now pid := by
  unfold liveSumAux
  rw [List.filter_filter]
  apply sum_map_filter_le
  · intro x hx hq
    simp only [Bool.and_eq_true] at hq ⊢
    exact hq.1
  · exact hpos

theorem liveSumAux_mono_now (rs : List StockReservation) (now dt : Int) (pid : Nat)
    (hdt : 0 ≤ dt) (hpos : ∀ r ∈ rs, 0 ≤ r.quantity) :
    liveSumAux rs (now + dt) pid ≤ liveSumAux rs now pid := by
  unfold liveSumAux
  apply sum_map_filter_le
  · intro x hx hq
    simp only [Bool.and_eq_true, decide_eq_true_eq] at hq ⊢
    exact ⟨hq.1, by omega⟩
  · exact hpos

theorem find?_isSome_of_mem {α : Type} (l : List α) (p : α → Bool) (a : α)
    (ha : a ∈ l) (hp : p a = true) :
    ∃ b, l.find? p = some b ∧ b ∈ l ∧ p b = true := by
  cases h : l.find? p with
  | none => exact absurd hp (by simpa using List.find?_eq_none.mp h a ha)
  | some b => exact ⟨b, rfl, List.mem_of_find?_eq_some h, List.find?_some h⟩

theorem find?_beq_eq_of_nodup {α : Type} (l : List α) (f : α → Nat)
    (hn : (l.map f).Nodup) (a : α) (ha : a ∈ l) :
    l.find? (fun x => f x == f a) = some a := by
  obtain ⟨b, hb, hbm, hbp⟩ :=
    find?_isSome_of_mem l (fun x => f x == f a) a ha (by simp)
  have hfb : f b = f a := by simpa using hbp
  have hba : b = a := List.inj_on_of_nodup_map hn hbm ha hfb
  rw [hb, hba]

theorem order_update_status_none (db : Db) (oid : Nat) (st : OrderStatus)
    (h : db.orders.find? (fun o => o.oid == oid) = none) :
    order_update_status db oid st = (none, db) := by
  unfold order_update_status
  rw [h]

theorem order_update_status_some (db : Db) (oid : Nat) (st : OrderStatus) (o : Order)
    (h : db.orders.find? (fun o2 => o2.oid == oid) = some o) :
    order_update_status db oid st
      = (some { o with status := st },
         { db with
           orders := db.orders.map
             (fun q => if q.oid == oid then { q with status := st } else q) }) := by
  unfold order_update_status
  rw [h]

theorem product_update_stock_none (db : Db) (pid : Nat) (s : Int)
    (h : findProduct db pid = none) :
    product_update_stock db pid s = (none, db) := by
  unfold product_update_stock
  rw [h]

theorem product_update_stock_some (db : Db) (pid : Nat) (s : Int) (p : Product)
    (h : findProduct db pid = some p) :
    product_update_stock db pid s
      = (some { p with stock := s },
         { db with
           products := db.products.map
             (fun q => if q.pid == pid then { q with stock := s } else q) }) := by
  unfold product_update_stock
  rw [h]

theorem create_webhook_record_fresh (db : Db) (ev : StripeEvent)
    (h : ∀ w ∈ db.webhooks, w.eventId ≠ ev.eventId) :
    create_webhook_record db ev
      = (.ok (webhook_row db ev),
         { db with
           webhooks := db.webhooks ++ [webhook_row db ev],
           nextId := db.nextId + 1 }) := by
  unfold create_webhook_record webhook_row
  rw [if_neg]
  simp only [List.any_eq_true, beq_iff_eq, not_exists, not_and]
  exact h

theorem create_webhook_record_dup (db : Db) (ev : StripeEvent)
    (h : ∃ w ∈ db.webhooks, w.eventId = ev.eventId) :
    create_webhook_record db ev = (.error .database, db) := by
  unfold create_webhook_record
  rw [if_pos]
  simp only [List.any_eq_true, beq_iff_eq]
  exact h

theorem handle_stripe_webhook_dup (db : Db) (ev : StripeEvent)
    (h : ∃ w ∈ db.webhooks, w.eventId = ev.eventId) :
    handle_stripe_webhook db ev = (.storeFailed, db) := by
  unfold handle_stripe_webhook
  rw [create_webhook_record_dup db ev h]

theorem handle_payment_succeeded_some (db : Db) (iid : Nat) (pay : Payment) (o : Order)
    (hp : db.payments.find? (fun p => p.intentId == iid) = some pay)
    (ho : o ∈ db.orders) (hoid : o.oid = pay.orderId) :
    handle_payment_succeeded db iid
      = (.ok (),
         { db with
           payments := db.payments.map (fun p =>
             if p.intentId == iid then { p with status := .succeeded } else p),
           orders := db.orders.map (fun q =>
             if q.oid == pay.orderId then { q with status := .paid } else q) }) := by
  obtain ⟨b, hb, -, -⟩ :=
    find?_isSome_of_mem db.orders (fun q => q.oid == pay.orderId) o ho
      (by simp [hoid])
  simp only [handle_payment_succeeded, order_update_status, hp, hb]

theorem handle_payment_succeeded_frame (db : Db) (iid : Nat) :
    ((handle_payment_succeeded db iid).2).products = db.products ∧
    ((handle_payment_succeeded db iid).2).reservations = db.reservations ∧
    ((handle_payment_succeeded db iid).2).invLogs = db.invLogs ∧
    ((handle_payment_succeeded db iid).2).webhooks = db.webhooks ∧
    ((handle_payment_succeeded db iid).2).now = db.now := by
  cases hp : db.payments.find? (fun p => p.intentId == iid) with
  | none =>
    simp only [handle_payment_succeeded, order_update_status, hp]
    exact ⟨trivial, trivial, trivial, trivial, trivial⟩
  | some pay =>
    cases hb : db.orders.find? (fun o => o.oid == pay.orderId) with
    | none =>
      simp only [handle_payment_succeeded, order_update_status, hp, hb]
      exact ⟨trivial, trivial, trivial, trivial, trivial⟩
    | some b =>
      simp only [handle_payment_succeeded, order_update_status, hp, hb]
      exact ⟨trivial, trivial, trivial, trivial, trivial⟩

theorem handle_payment_failed_frame (db : Db) (iid : Nat) :
    ((handle_payment_failed db iid).2).products = db.products ∧
    ((handle_payment_failed db iid).2).reservations = db.reservations ∧
    ((handle_payment_failed db iid).2).invLogs = db.invLogs ∧
    ((handle_payment_failed db iid).2).webhooks = db.webhooks ∧
    ((handle_payment_failed db iid).2).now = db.now := by
  cases hp : db.payments.find? (fun p => p.intentId == iid) with
  | none =>
    simp only [handle_payment_failed, order_update_status, hp]
    exact ⟨trivial, trivial, trivial, trivial, trivial⟩
  | some pay =>
    cases hb : db.orders.find? (fun o => o.oid == pay.orderId) with
    | none =>
      simp only [handle_payment_failed, order_update_status, hp, hb]
      exact ⟨trivial, trivial, trivial, trivial, trivial⟩
    | some b =>
      simp only [handle_payment_failed, order_update_status, hp, hb]
      exact ⟨trivial, trivial, trivial, trivial, trivial⟩

theorem itemsQty_cons (i : OrderItem) (rest : List OrderItem) (pid : Nat) :
    itemsQty (i :: rest) pid
      = (if i.productId == pid then i.quantity else 0) + itemsQty rest pid := by
  unfold itemsQty
  rw [List.map_cons, List.sum_cons]

theorem pay_decrement_step_eq (db : Db) (i : OrderItem) (h : ProductsWF db) :
    pay_decrement_step db i
      = { db with products := db.products.map (fun p =>
          { p with stock :=
              p.stock - (if i.productId == p.pid then i.quantity else 0) }) } := by
  unfold pay_decrement_step
  cases hf : findProduct db i.productId with
  | none =>
    have hall := List.find?_eq_none.mp hf
    have hmap : db.products.map (fun p =>
        ({ p with stock :=
            p.stock - (if i.productId == p.pid then i.quantity else 0) } : Product))
        = db.products := by
      refine (List.map_congr_left ?_).trans (List.map_id' _)
      intro p hp
      have hne : ¬ (p.pid == i.productId) = true := hall p hp
      have hfalse : (i.productId == p.pid) = false := by
        rw [beq_eq_false_iff_ne]
        intro hh
        exact hne (beq_iff_eq.mpr hh.symm)
      rw [hfalse]
      simp
    rw [hmap]
  | some p0 =>
    have hp0mem : p0 ∈ db.products := List.mem_of_find?_eq_some hf
    have hp0pid : p0.pid = i.productId := by simpa using List.find?_some hf
    obtain ⟨b, hb, hbm, hbp⟩ :=
      find?_isSome_of_mem db.products (fun q => q.pid == p0.pid) p0 hp0mem (by simp)
    change (product_update_stock db p0.pid (p0.stock - i.quantity)).2 = _
    rw [product_update_stock_some db p0.pid _ b hb]
    dsimp only
    congr 1
    apply List.map_congr_left
    intro q hq
    by_cases hqp : q.pid = p0.pid
    · have hq_eq : q = p0 := List.inj_on_of_nodup_map h hq hp0mem hqp
      have htrue : (i.productId == q.pid) = true :=
        beq_iff_eq.mpr (hqp.trans hp0pid).symm
      rw [if_pos (beq_iff_eq.mpr hqp), htrue, if_pos rfl, hq_eq]
    · have hfalse : (i.productId == q.pid) = false := by
        rw [beq_eq_false_iff_ne]
        intro hh
        exact hqp (hh.symm.trans hp0pid.symm)
      rw [if_neg (fun hc => hqp (beq_iff_eq.mp hc)), hfalse]
      simp

theorem pay_decrement_fold_eq :
    ∀ (items : List OrderItem) (db : Db), ProductsWF db →
      items.foldl pay_decrement_step db
        = { db with products := db.products.map (fun p =>
            { p with stock := p.stock - itemsQty items p.pid }) } := by
  intro items
  induction items with
  | nil =>
    intro db h
    rw [List.foldl_nil]
    have hmap : db.products.map (fun p =>
        ({ p with stock := p.stock - itemsQty [] p.pid } : Product))
        = db.products := by
      refine (List.map_congr_left ?_).trans (List.map_id' _)
      intro p hp
      unfold itemsQty
      simp
    rw [hmap]
  | cons i rest ih =>
    intro db h
    rw [List.foldl_cons, pay_decrement_step_eq db i h]
    have h2 : ProductsWF { db with products := db.products.map (fun p =>
        { p with stock :=
            p.stock - (if i.productId == p.pid then i.quantity else 0) }) } := by
      unfold ProductsWF at h ⊢
      dsimp only
      rw [List.map_map]
      exact h
    rw [ih _ h2]
    dsimp only
    congr 1
    rw [List.map_map]
    apply List.map_congr_left
    intro p hp
    show ({ p with stock :=
        p.stock - (if i.productId == p.pid then i.quantity else 0)
          - itemsQty rest p.pid } : Product)
      = { p with stock := p.stock - itemsQty (i :: rest) p.pid }
    rw [itemsQty_cons, Int.sub_sub]

/-! Claim C6. -/

/-- C6: whenever `create_order_from_cart` fails — with no cart, an empty cart,
a missing product, or insufficient stock — the state comes back unchanged, so
no Order row and no OrderItem rows are left behind and the cart is untouched;
and when the caller's cart exists but holds no items, checkout fails exactly
with the cart-empty error and, again, creates no Order row. -/
theorem checkout_failure_leaves_no_partial_order (db : Db) (u : Nat) :
    (∀ e : CheckoutErr, (create_order_from_cart db u).1 = .error e →
      (create_order_from_cart db u).2 = db) ∧
    (∀ c : Cart, db.carts.find? (fun c2 => c2.userId == u) = some c →
      db.cartItems.filter (fun ci => ci.cartId == c.cid) = [] →
      create_order_from_cart db u = (.error .cartEmpty, db)) := by
  constructor
  · intro e h
    cases hc : db.carts.find? (fun c => c.userId == u) with
    | none => simp only [create_order_from_cart, hc]
    | some cart =>
      by_cases he :
          (db.cartItems.filter (fun ci => ci.cartId == cart.cid)).isEmpty = true
      · simp [create_order_from_cart, hc, he]
      · cases hv : checkout_validate db
            (db.cartItems.filter (fun ci => ci.cartId == cart.cid)) with
        | error e2 => simp [create_order_from_cart, hc, he, hv]
        | ok pr =>
          obtain ⟨tot, chk⟩ := pr
          simp [create_order_from_cart, hc, he, hv] at h
  · intro c hc hemp
    simp [create_order_from_cart, hc, hemp]

/-- Witness for C6: in `emptyCartDb` user 7's cart exists with no items;
checkout fails with the cart-empty error and the state is unchanged. -/
theorem checkout_failure_leaves_no_partial_order_witness :
    create_order_from_cart emptyCartDb 7 = (.error .cartEmpty, emptyCartDb) :=
  (checkout_failure_leaves_no_partial_order emptyCartDb 7).2
    { cid := 2, userId := 7 } (by decide) (by decide)

/-! Claim C7. -/

/-- C7: for an existing product with `track_inventory` on, reserving exactly
the currently available stock (on-hand minus live reservations) succeeds and
returns the inserted reservation, while reserving one unit more fails with the
insufficient-stock outcome and leaves the state — reservation rows and
inventory log included — completely unchanged. -/
theorem reserve_availability_boundary (db : Db) (pid cid : Nat) (m : Int)
    (p : Product) (hp : findProduct db pid = some p)
    (ht : p.trackInventory = true) :
    (create_reservation db pid cid (p.stock - liveReservedSum db pid) m).1
        = some { rid := db.nextId, productId := pid, cartId := cid,
                 quantity := p.stock - liveReservedSum db pid,
                 reservedAt := db.now, expiresAt := db.now + m } ∧
    create_reservation db pid cid (p.stock - liveReservedSum db pid + 1) m
        = (none, db) := by
  constructor
  · simp only [create_reservation, hp, ht, Bool.not_true, Bool.false_eq_true,
      if_false, lt_irrefl]
  · simp only [create_reservation, hp, ht, Bool.not_true, Bool.false_eq_true,
      if_false]
    rw [if_pos (by omega)]

/-- Witness for C7 at `sampleDb`: available stock of product 1 is 5, reserving
5 succeeds and reserving 6 is refused without a trace. -/
theorem reserve_availability_boundary_witness :
    (create_reservation sampleDb 1 9 (5 - liveReservedSum sampleDb 1) 30).1
        = some { rid := 100, productId := 1, cartId := 9,
                 quantity := 5 - liveReservedSum sampleDb 1,
                 reservedAt := 0, expiresAt := 30 } ∧
    create_reservation sampleDb 1 9 (5 - liveReservedSum sampleDb 1 + 1) 30
        = (none, sampleDb) :=
  reserve_availability_boundary sampleDb 1 9 30 sampleProduct (by decide)
    (by decide)

/-! Claim C9. -/

/-- Counterexample to C9: `create_reservation` accepts a negative quantity.
On `sampleDb` (stock 5, no reservations) reserving quantity `-3` returns a
stored reservation whose quantity is not strictly positive, and afterwards the
computed available stock rises from 5 to 8 — a stored reservation increased
availability, which C9 asserts impossible. -/
theorem reserve_accepts_nonpositive_quantity :
    ((create_reservation sampleDb 1 9 (-3) 30).1
      = some { rid := 100, productId := 1, cartId := 9, quantity := -3,
               reservedAt := 0, expiresAt := 30 }) ∧
    ¬ (0 < (-3 : Int)) ∧
    (get_available_stock ((create_reservation sampleDb 1 9 (-3) 30).2) 1
      = some 8) ∧
    get_available_stock sampleDb 1 = some 5 := by
  refine ⟨?_, ?_, ?_, ?_⟩ <;> decide

/-- C9 (amended): `create_reservation` performs no positivity check. What does
hold is that whenever it returns a reservation, that reservation stores
exactly the requested quantity — any integer, zero and negatives included —
and the quantity is bounded by the available stock of the (existing, tracked)
product at reservation time; a nonpositive stored quantity therefore can
increase computed available stock. -/
theorem reserve_returns_requested_quantity (db : Db) (pid cid : Nat)
    (q m : Int) (r : StockReservation)
    (h : (create_reservation db pid cid q m).1 = some r) :
    r.quantity = q ∧
    ∃ p, findProduct db pid = some p ∧ p.trackInventory = true ∧
      q ≤ p.stock - liveReservedSum db pid := by
  cases hp : findProduct db pid with
  | none => simp [create_reservation, hp] at h
  | some p =>
    by_cases ht : p.trackInventory = true
    · by_cases hlt : p.stock - liveReservedSum db pid < q
      · simp [create_reservation, hp, ht, hlt] at h
      · simp only [create_reservation, hp, ht, Bool.not_true,
          Bool.false_eq_true, if_false] at h
        rw [if_neg hlt] at h
        cases h
        exact ⟨rfl, p, rfl, ht, by omega⟩
    · simp [create_reservation, hp, ht] at h

/-- Witness for the amended C9 on `sampleDb` with requested quantity 5. -/
theorem reserve_returns_requested_quantity_witness :
    ({ rid := 100, productId := 1, cartId := 9, quantity := 5, reservedAt := 0,
       expiresAt := 30 } : StockReservation).quantity = 5 ∧
    ∃ p, findProduct sampleDb 1 = some p ∧ p.trackInventory = true ∧
      5 ≤ p.stock - liveReservedSum sampleDb 1 :=
  reserve_returns_requested_quantity sampleDb 1 9 5 30 _ (by decide)

/-! Claim C10. -/

/-- C10: for a caller `u` and an existing order owned by someone else,
`pay_order` returns `None` — the same outcome as a missing order or a wrong
status, with no distinct forbidden error — and returns the state unchanged, so
no order status and no product stock moves. -/
theorem pay_order_foreign_order_noop (db : Db) (u : Nat) (o : Order)
    (hwf : DbWF db) (ho : o ∈ db.orders) (hu : o.userId ≠ u) :
    pay_order db u o.oid = (none, db) := by
  unfold pay_order
  have hnone : (db.orders.filter (fun o2 => o2.userId == u)).find?
      (fun o2 => o2.oid == o.oid) = none := by
    apply List.find?_eq_none.mpr
    intro x hx
    simp only [List.mem_filter] at hx
    simp only [beq_iff_eq]
    intro heq
    have hxo : x = o := List.inj_on_of_nodup_map hwf.2 hx.1 ho heq
    have : o.userId = u := by
      have := hx.2
      rw [hxo] at this
      simpa using this
    exact hu this
  rw [hnone]

/-- Witness for C10: in `pendingOrderDb` order 10 belongs to user 3; caller 4
gets `None` and an unchanged state. -/
theorem pay_order_foreign_order_noop_witness :
    pay_order pendingOrderDb 4 10 = (none, pendingOrderDb) :=
  pay_order_foreign_order_noop pendingOrderDb 4
    { oid := 10, userId := 3, total := ⟨30, 1⟩, status := .pendingPayment,
      paymentId := none, createdAt := 0 }
    (by decide) (by decide) (by decide)

/-! Claim C2. -/

/-- Counterexample to C2: in `pendingOrderDb` (order 10 of user 3 in
`pending_payment`, one item of three units, product stock 5, inventory log
empty) `pay_order` succeeds — stock drops to 2 and the order becomes `paid` —
yet the inventory log is still empty afterwards: no InventoryLog row of
change_type `sold` (nor any other) is appended, contradicting the claimed
one-log-row-per-item behaviour. -/
theorem pay_order_writes_no_inventory_log :
    ((pay_order pendingOrderDb 3 10).1.map (fun o => o.status) = some .paid) ∧
    ((pay_order pendingOrderDb 3 10).2.products.map (fun p => p.stock) = [2]) ∧
    ((pay_order pendingOrderDb 3 10).2.orders.map (fun o => o.status) = [.paid]) ∧
    ((pay_order pendingOrderDb 3 10).2.invLogs = []) := by
  refine ⟨?_, ?_, ?_, ?_⟩ <;> decide

/-- C2 (amended): for an order in `pending_payment` owned by the caller, all
of whose items' products exist with on-hand stock at least the item quantity,
`pay_order` decrements each item's product stock directly through
`ProductRepository::update_stock` — appending no InventoryLog row of any
change_type — and sets the order status to `paid`. The returned state differs
from the input state only in the product stocks and the order status; in
particular the inventory-log table is exactly as before. -/
theorem pay_order_success_decrements_stock (db : Db) (u oid : Nat) (o : Order)
    (hwf : DbWF db) (ho : o ∈ db.orders) (hu : o.userId = u) (hoid : o.oid = oid)
    (hst : o.status = .pendingPayment)
    (hstock : ∀ i ∈ db.orderItems.filter (fun i2 => i2.orderId == oid),
      ∃ p, findProduct db i.productId = some p ∧ i.quantity ≤ p.stock) :
    pay_order db u oid
      = (some { o with status := .paid },
         { db with
           products := db.products.map (fun p =>
             { p with stock := p.stock - orderQtyFor db oid p.pid }),
           orders := db.orders.map (fun q =>
             if q.oid == oid then { q with status := .paid } else q) }) := by
  subst hu
  subst hoid
  have hfo : (db.orders.filter (fun o2 => o2.userId == o.userId)).find?
      (fun o2 => o2.oid == o.oid) = some o := by
    have hmem : o ∈ db.orders.filter (fun o2 => o2.userId == o.userId) :=
      List.mem_filter.mpr ⟨ho, by simp⟩
    have hnd : ((db.orders.filter (fun o2 => o2.userId == o.userId)).map
        (fun o2 => o2.oid)).Nodup :=
      ((List.filter_sublist _).map _).nodup hwf.2
    exact find?_beq_eq_of_nodup _ _ hnd o hmem
  have hall : (db.orderItems.filter (fun i => i.orderId == o.oid)).all (fun i =>
      match findProduct db i.productId with
      | some p => decide (i.quantity ≤ p.stock)
      | none => false) = true := by
    rw [List.all_eq_true]
    intro i hi
    obtain ⟨p, hp, hle⟩ := hstock i hi
    rw [hp]
    simpa using hle
  have hfo2 : db.orders.find? (fun o2 => o2.oid == o.oid) = some o :=
    find?_beq_eq_of_nodup db.orders (fun o2 => o2.oid) hwf.2 o ho
  simp only [pay_order, hfo, hst]
  rw [if_neg (by simp), if_pos hall, pay_decrement_fold_eq _ _ hwf.1]
  rw [order_update_status_some _ o.oid .paid o ?_]
  · rfl
  · exact hfo2

/-- Witness for the amended C2 at `pendingOrderDb`: paying order 10 as user 3
lands exactly on the state with stock 2 and the order `paid`, with the
inventory log untouched. -/
theorem pay_order_success_decrements_stock_witness :
    pay_order pendingOrderDb 3 10
      = (some { oid := 10, userId := 3, total := ⟨30, 1⟩, status := .paid,
                paymentId := none, createdAt := 0 },
         { pendingOrderDb with
           products := pendingOrderDb.products.map (fun p =>
             { p with stock := p.stock - orderQtyFor pendingOrderDb 10 p.pid }),
           orders := pendingOrderDb.orders.map (fun q =>
             if q.oid == 10 then { q with status := .paid } else q) }) :=
  pay_order_success_decrements_stock pendingOrderDb 3 10
    { oid := 10, userId := 3, total := ⟨30, 1⟩, status := .pendingPayment,
      paymentId := none, createdAt := 0 }
    (by decide) (by decide) (by decide) (by decide) (by decide)
    (by
      intro i hi
      refine ⟨sampleProduct, ?_, ?_⟩ <;> revert hi <;> revert i <;> decide)

theorem handle_stripe_webhook_webhooks (db : Db) (ev : StripeEvent)
    (hfresh : ∀ w ∈ db.webhooks, w.eventId ≠ ev.eventId) :
    ((handle_stripe_webhook db ev).2).webhooks
      = db.webhooks ++ [webhook_row db ev] := by
  unfold handle_stripe_webhook
  rw [create_webhook_record_fresh db ev hfresh]
  dsimp only
  cases hty : ev.eventType with
  | paymentIntentSucceeded =>
    cases hobj : ev.objectId with
    | some iid => exact (handle_payment_succeeded_frame _ iid).2.2.2.1
    | none => rfl
  | paymentIntentFailed =>
    cases hobj : ev.objectId with
    | some iid => exact (handle_payment_failed_frame _ iid).2.2.2.1
    | none => rfl
  | other tag => rfl

/-! Claim C3. -/

/-- Counterexample to C3: delivering `sampleEvent` to `paymentDb` twice leaves
exactly one webhook row with its event id — the second delivery is rejected by
the unique dedupe key with a storage error, so it is NOT recorded in the
webhook table, contrary to the claim's "recorded but produces no further
change". -/
theorem webhook_second_delivery_not_recorded :
    ((handle_stripe_webhook (handle_stripe_webhook paymentDb sampleEvent).2
        sampleEvent).1 = .storeFailed) ∧
    ((((handle_stripe_webhook (handle_stripe_webhook paymentDb sampleEvent).2
        sampleEvent).2).webhooks.filter (fun w => w.eventId == 5)).length = 1) := by
  exact ⟨by decide, by decide⟩

/-- C3 (amended): redelivering a webhook event id performs no further Payment
or Order transition — the state after the second delivery is exactly the state
after the first, so the two deliveries together perform at most one Order and
one Payment transition — but the second delivery is not recorded: the insert
into the dedupe-keyed webhook table fails and the handler answers with the
storage error instead of storing a second row. -/
theorem webhook_redelivery_is_noop (db : Db) (ev : StripeEvent)
    (hfresh : ∀ w ∈ db.webhooks, w.eventId ≠ ev.eventId) :
    handle_stripe_webhook (handle_stripe_webhook db ev).2 ev
      = (.storeFailed, (handle_stripe_webhook db ev).2) := by
  apply handle_stripe_webhook_dup
  refine ⟨webhook_row db ev, ?_, rfl⟩
  rw [handle_stripe_webhook_webhooks db ev hfresh]
  simp

/-- Witness for the amended C3 at `paymentDb` and `sampleEvent`. -/
theorem webhook_redelivery_is_noop_witness :
    handle_stripe_webhook (handle_stripe_webhook paymentDb sampleEvent).2
        sampleEvent
      = (.storeFailed, (handle_stripe_webhook paymentDb sampleEvent).2) :=
  webhook_redelivery_is_noop paymentDb sampleEvent (by decide)

/-! Claim C4. -/

/-- Counterexample to C4: on `paymentDb` (payment on intent 7 for order 10,
stock 5, one live reservation of 2 units, empty inventory log) the
`payment_intent.succeeded` webhook for intent 7 marks the payment `succeeded`
and the order `paid`, but converts nothing: products, stock and reservations
are exactly as before and no inventory log entry is written — no Stock Mutator
invocation happens. -/
theorem webhook_succeeded_leaves_stock_untouched :
    ((handle_stripe_webhook paymentDb sampleEvent).2.payments.map
        (fun p => p.status) = [.succeeded]) ∧
    ((handle_stripe_webhook paymentDb sampleEvent).2.orders.map
        (fun o => o.status) = [.paid]) ∧
    ((handle_stripe_webhook paymentDb sampleEvent).2.products
        = paymentDb.products) ∧
    ((handle_stripe_webhook paymentDb sampleEvent).2.reservations
        = paymentDb.reservations) ∧
    ((handle_stripe_webhook paymentDb sampleEvent).2.invLogs = []) := by
  exact ⟨by decide, by decide, by decide, by decide, by decide⟩

/-- C4 (amended): a `payment_intent.succeeded` webhook naming a known payment
intent records the event, sets every payment row carrying that intent to
`succeeded` and drives the owning Order to `paid` — and does nothing else: it
does not invoke the Stock Mutator, so products, reservations and the inventory
log come back exactly unchanged (the reservation-to-sale conversion is only a
comment in `PaymentService::handle_payment_succeeded`). -/
theorem webhook_succeeded_pays_order_without_stock (db : Db) (ev : StripeEvent)
    (iid : Nat) (pay : Payment) (o : Order)
    (hty : ev.eventType = .paymentIntentSucceeded)
    (hobj : ev.objectId = some iid)
    (hfresh : ∀ w ∈ db.webhooks, w.eventId ≠ ev.eventId)
    (hpay : db.payments.find? (fun p => p.intentId == iid) = some pay)
    (ho : o ∈ db.orders) (hoid : o.oid = pay.orderId) :
    handle_stripe_webhook db ev
      = (.received,
         { db with
           webhooks := db.webhooks ++ [webhook_row db ev],
           nextId := db.nextId + 1,
           payments := db.payments.map (fun p =>
             if p.intentId == iid then { p with status := .succeeded } else p),
           orders := db.orders.map (fun q =>
             if q.oid == pay.orderId then { q with status := .paid } else q) }) := by
  unfold handle_stripe_webhook
  rw [create_webhook_record_fresh db ev hfresh]
  dsimp only
  rw [hty]
  dsimp only
  rw [hobj]
  dsimp only
  rw [handle_payment_succeeded_some _ iid pay o ?_ ?_ ?_]
  · exact hpay
  · exact ho
  · exact hoid

/-- Witness for the amended C4 at `paymentDb`, `sampleEvent` (intent 7,
payment 30, order 10). -/
theorem webhook_succeeded_pays_order_without_stock_witness :
    handle_stripe_webhook paymentDb sampleEvent
      = (.received,
         { paymentDb with
           webhooks := paymentDb.webhooks ++ [webhook_row paymentDb sampleEvent],
           nextId := paymentDb.nextId + 1,
           payments := paymentDb.payments.map (fun p =>
             if p.intentId == 7 then { p with status := .succeeded } else p),
           orders := paymentDb.orders.map (fun q =>
             if q.oid == 10 then { q with status := .paid } else q) }) :=
  webhook_succeeded_pays_order_without_stock paymentDb sampleEvent 7
    { payid := 30, orderId := 10, intentId := 7, amount := ⟨30, 1⟩,
      status := .pending }
    { oid := 10, userId := 3, total := ⟨30, 1⟩, status := .paymentProcessing,
      paymentId := none, createdAt := 0 }
    (by decide) (by decide) (by decide) (by decide) (by decide) (by decide)

/-! Claim C5. -/

/-- Counterexample to C5: after `paymentDb` fully handles `sampleEvent`
(stored, dispatched, payment and order updated), the stored webhook row still
has `processed = false` and no error message: the outcome is never recorded
back onto the row, contradicting the claimed `processed = true` write. -/
theorem webhook_processed_flag_stays_false :
    ((handle_stripe_webhook paymentDb sampleEvent).2).webhooks.map
        (fun w => (w.eventId, w.processed, w.errorMessage))
      = [(5, false, none)] := by decide

/-- C5 (amended): an inbound webhook whose payload parses is persisted first —
one new row holding the payload with `processed = false` — and the event is
then dispatched by type; but the processing outcome is never recorded back:
`mark_webhook_processed` has no caller, so after handling completes the stored
row still carries `processed = false` and an empty error message. -/
theorem webhook_persisted_first_never_marked (db : Db) (ev : StripeEvent)
    (hfresh : ∀ w ∈ db.webhooks, w.eventId ≠ ev.eventId) :
    ((handle_stripe_webhook db ev).2).webhooks
        = db.webhooks ++ [webhook_row db ev] ∧
    (webhook_row db ev).processed = false ∧
    (webhook_row db ev).payload = ev ∧
    (webhook_row db ev).errorMessage = none :=
  ⟨handle_stripe_webhook_webhooks db ev hfresh, rfl, rfl, rfl⟩

/-- Witness for the amended C5 at `paymentDb` and `sampleEvent`. -/
theorem webhook_persisted_first_never_marked_witness :
    ((handle_stripe_webhook paymentDb sampleEvent).2).webhooks
        = paymentDb.webhooks ++ [webhook_row paymentDb sampleEvent] ∧
    (webhook_row paymentDb sampleEvent).processed = false ∧
    (webhook_row paymentDb sampleEvent).payload = sampleEvent ∧
    (webhook_row paymentDb sampleEvent).errorMessage = none :=
  webhook_persisted_first_never_marked paymentDb sampleEvent (by decide)

/-! Claim C8. -/

/-- C8 (the code at the failing input): checkout of `bigPriceDb` — one cart
item, quantity 1, unit price 90071992547409.91 — has exact Decimal total
9007199254740991/100, but `create_order` receives that total only after the
`try_into::<f64>().unwrap_or(0.0)` conversion (order_service.rs line 73), and
the persisted order total is the f64 value 2882303761517117/32
(= 90071992547409.90625) ≠ the exact sum. A floating-point representation is
therefore involved in producing the stored value, and the stored total differs
from the exact fixed-point sum. Both sides are normalized fractions, so the
inequality is an inequality of rational values. -/
theorem checkout_total_corrupted_through_f64 :
    checkout_exact_total bigPriceDb 3 = some ⟨9007199254740991, 100⟩ ∧
    ((create_order_from_cart bigPriceDb 3).2.orders.map (fun o => o.total))
      = [⟨2882303761517117, 32⟩] ∧
    (⟨2882303761517117, 32⟩ : Decimal) ≠ (⟨9007199254740991, 100⟩ : Decimal) := by
  exact ⟨by decide, by decide, by decide⟩

/-! Claim C1: transfer lemmas and per-operation preservation. -/

theorem productsWF_of_fields (db db2 : Db) (hp : db2.products = db.products)
    (h : ProductsWF db) : ProductsWF db2 := by
  unfold ProductsWF at *
  rw [hp]
  exact h

theorem reservationsPositive_of_fields (db db2 : Db)
    (hr : db2.reservations = db.reservations)
    (h : ReservationsPositive db) : ReservationsPositive db2 := by
  unfold ReservationsPositive at *
  rw [hr]
  exact h

theorem stockInvariant_of_fields (db db2 : Db) (hp : db2.products = db.products)
    (hr : db2.reservations = db.reservations) (hn : db2.now = db.now)
    (h : StockInvariant db) : StockInvariant db2 := by
  unfold StockInvariant liveReservedSum at *
  rw [hp, hr, hn]
  exact h

theorem create_order_from_cart_frame (db : Db) (u : Nat) :
    ((create_order_from_cart db u).2).products = db.products ∧
    ((create_order_from_cart db u).2).reservations = db.reservations ∧
    ((create_order_from_cart db u).2).now = db.now := by
  cases hc : db.carts.find? (fun c => c.userId == u) with
  | none => refine ⟨?_, ?_, ?_⟩ <;> simp [create_order_from_cart, hc]
  | some cart =>
    by_cases he :
        (db.cartItems.filter (fun ci => ci.cartId == cart.cid)).isEmpty = true
    · refine ⟨?_, ?_, ?_⟩ <;> simp [create_order_from_cart, hc, he]
    · cases hv : checkout_validate db
          (db.cartItems.filter (fun ci => ci.cartId == cart.cid)) with
      | error e2 =>
        refine ⟨?_, ?_, ?_⟩ <;> simp [create_order_from_cart, hc, he, hv]
      | ok pr =>
        obtain ⟨tot, chk⟩ := pr
        refine ⟨?_, ?_, ?_⟩ <;> simp [create_order_from_cart, hc, he, hv]

theorem handle_stripe_webhook_frame (db : Db) (ev : StripeEvent) :
    ((handle_stripe_webhook db ev).2).products = db.products ∧
    ((handle_stripe_webhook db ev).2).reservations = db.reservations ∧
    ((handle_stripe_webhook db ev).2).now = db.now := by
  unfold handle_stripe_webhook create_webhook_record
  by_cases hd : (db.webhooks.any (fun w => w.eventId == ev.eventId)) = true
  · rw [if_pos hd]
    exact ⟨rfl, rfl, rfl⟩
  · rw [if_neg hd]
    dsimp only
    cases hty : ev.eventType with
    | paymentIntentSucceeded =>
      cases hobj : ev.objectId with
      | some iid =>
        exact ⟨(handle_payment_succeeded_frame _ iid).1,
          (handle_payment_succeeded_frame _ iid).2.1,
          (handle_payment_succeeded_frame _ iid).2.2.2.2⟩
      | none => exact ⟨rfl, rfl, rfl⟩
    | paymentIntentFailed =>
      cases hobj : ev.objectId with
      | some iid =>
        exact ⟨(handle_payment_failed_frame _ iid).1,
          (handle_payment_failed_frame _ iid).2.1,
          (handle_payment_failed_frame _ iid).2.2.2.2⟩
      | none => exact ⟨rfl, rfl, rfl⟩
    | other tag => exact ⟨rfl, rfl, rfl⟩

theorem order_update_status_frame (db : Db) (oid : Nat) (st : OrderStatus) :
    ((order_update_status db oid st).2).products = db.products ∧
    ((order_update_status db oid st).2).reservations = db.reservations ∧
    ((order_update_status db oid st).2).now = db.now := by
  unfold order_update_status
  cases h : db.orders.find? (fun o => o.oid == oid) with
  | none => exact ⟨rfl, rfl, rfl⟩
  | some o => exact ⟨rfl, rfl, rfl⟩

theorem nodup_pid_map_stock (l : List Product) (f : Product → Int)
    (h : (l.map (fun p => p.pid)).Nodup) :
    ((l.map (fun p => { p with stock := f p })).map (fun p => p.pid)).Nodup := by
  rw [List.map_map]
  exact h

/-- One core operation, applied under its side condition, preserves product-id
uniqueness, reservation positivity and the stock invariant. -/
theorem applyOp_preserves (db : Db) (op : CoreOp)
    (hwf : ProductsWF db) (hpos : ReservationsPositive db)
    (hinv : StockInvariant db) (hsafe : OpSafe db op) :
    ProductsWF (applyOp db op) ∧ ReservationsPositive (applyOp db op) ∧
      StockInvariant (applyOp db op) := by
  cases op with
  | reserve pid cid q m =>
    have hq : 0 < q := hsafe
    unfold applyOp
    cases hp : findProduct db pid with
    | none =>
      simp only [create_reservation, hp]
      exact ⟨hwf, hpos, hinv⟩
    | some prod =>
      by_cases ht : prod.trackInventory = true
      · by_cases hlt : prod.stock - liveReservedSum db pid < q
        · simp only [create_reservation, hp, ht, Bool.not_true,
            Bool.false_eq_true, if_false]
          rw [if_pos hlt]
          exact ⟨hwf, hpos, hinv⟩
        · simp only [create_reservation, hp, ht, Bool.not_true,
            Bool.false_eq_true, if_false]
          rw [if_neg hlt]
          dsimp only
          refine ⟨hwf, ?_, ?_⟩
          · intro r hr
            rcases List.mem_append.mp hr with h1 | h2
            · exact hpos r h1
            · have hr2 : r
                  = { rid := db.nextId, productId := pid, cartId := cid,
                      quantity := q, reservedAt := db.now,
                      expiresAt := db.now + m } := by simpa using h2
              rw [hr2]
              exact hq
          · intro p2 hp2 htr2
            unfold liveReservedSum
            dsimp only at hp2 ⊢
            rw [liveSumAux_append, liveSumAux_singleton]
            dsimp only
            have hbase := hinv p2 hp2 htr2
            unfold liveReservedSum at hbase
            by_cases hc : ((pid == p2.pid) = true ∧ db.now < db.now + m)
            · rw [if_pos (by simp [hc.1, hc.2])]
              have hprodmem : prod ∈ db.products := List.mem_of_find?_eq_some hp
              have hprodpid : prod.pid = pid := by
                simpa using List.find?_some hp
              have hpid2 : pid = p2.pid := by simpa using hc.1
              have hpeq : p2 = prod :=
                List.inj_on_of_nodup_map hwf hp2 hprodmem
                  (by rw [← hpid2, hprodpid])
              rw [← hpid2, hpeq]
              have hfit : liveSumAux db.reservations db.now pid + q
                  ≤ prod.stock := by
                unfold liveReservedSum at hlt
                omega
              exact hfit
            · rw [if_neg (by simpa using hc)]
              omega
      · have htf : prod.trackInventory = false := by
          cases hh : prod.trackInventory
          · rfl
          · exact absurd hh ht
        simp only [create_reservation, hp, htf, Bool.not_false, if_true]
        exact ⟨hwf, hpos, hinv⟩
  | cancel rid =>
    unfold applyOp
    cases hf : db.reservations.find? (fun r => r.rid == rid) with
    | none =>
      simp only [cancel_reservation, hf]
      exact ⟨hwf, hpos, hinv⟩
    | some res =>
      simp only [cancel_reservation, hf]
      refine ⟨hwf, ?_, ?_⟩
      · intro r hr
        exact hpos r (List.mem_filter.mp hr).1
      · intro p2 hp2 htr2
        unfold liveReservedSum
        dsimp only at hp2 ⊢
        calc liveSumAux (db.reservations.filter (fun r => !(r.rid == rid)))
              db.now p2.pid
            ≤ liveSumAux db.reservations db.now p2.pid :=
              liveSumAux_filter_le _ _ _ _
                (fun r hr => le_of_lt (hpos r hr))
          _ ≤ p2.stock := hinv p2 hp2 htr2
  | cleanupExpired =>
    unfold applyOp
    simp only [cleanup_expired_reservations]
    refine ⟨hwf, ?_, ?_⟩
    · intro r hr
      exact hpos r (List.mem_filter.mp hr).1
    · intro p2 hp2 htr2
      unfold liveReservedSum
      dsimp only at hp2 ⊢
      calc liveSumAux
            (db.reservations.filter (fun r => !decide (r.expiresAt ≤ db.now)))
            db.now p2.pid
          ≤ liveSumAux db.reservations db.now p2.pid :=
            liveSumAux_filter_le _ _ _ _ (fun r hr => le_of_lt (hpos r hr))
        _ ≤ p2.stock := hinv p2 hp2 htr2
  | checkout u =>
    obtain ⟨h1, h2, h3⟩ := create_order_from_cart_frame db u
    exact ⟨productsWF_of_fields db _ h1 hwf,
      reservationsPositive_of_fields db _ h2 hpos,
      stockInvariant_of_fields db _ h1 h2 h3 hinv⟩
  | webhook ev =>
    obtain ⟨h1, h2, h3⟩ := handle_stripe_webhook_frame db ev
    exact ⟨productsWF_of_fields db _ h1 hwf,
      reservationsPositive_of_fields db _ h2 hpos,
      stockInvariant_of_fields db _ h1 h2 h3 hinv⟩
  | tick m =>
    unfold applyOp
    dsimp only
    refine ⟨hwf, hpos, ?_⟩
    intro p2 hp2 htr2
    unfold liveReservedSum
    dsimp only at hp2 ⊢
    calc liveSumAux db.reservations (db.now + (m : Int)) p2.pid
        ≤ liveSumAux db.reservations db.now p2.pid :=
          liveSumAux_mono_now _ _ _ _ (Int.ofNat_nonneg m)
            (fun r hr => le_of_lt (hpos r hr))
      _ ≤ p2.stock := hinv p2 hp2 htr2
  | pay u oid =>
    unfold applyOp
    dsimp only
    cases hfo : (db.orders.filter (fun o2 => o2.userId == u)).find?
        (fun o2 => o2.oid == oid) with
    | none =>
      simp only [pay_order, hfo]
      exact ⟨hwf, hpos, hinv⟩
    | some order =>
      have hoid : order.oid = oid := by simpa using List.find?_some hfo
      by_cases hst : order.status = .pendingPayment
      · by_cases hall : ((db.orderItems.filter
            (fun i => i.orderId == order.oid)).all (fun i =>
              match findProduct db i.productId with
              | some p => decide (i.quantity ≤ p.stock)
              | none => false)) = true
        · simp only [pay_order, hfo]
          rw [if_neg (by simp [hst]), if_pos hall,
            pay_decrement_fold_eq _ _ hwf]
          refine ⟨productsWF_of_fields _ _
              (order_update_status_frame _ oid .paid).1 ?_,
            reservationsPositive_of_fields _ _
              (order_update_status_frame _ oid .paid).2.1 hpos,
            stockInvariant_of_fields _ _
              (order_update_status_frame _ oid .paid).1
              (order_update_status_frame _ oid .paid).2.1
              (order_update_status_frame _ oid .paid).2.2 ?_⟩
          · exact nodup_pid_map_stock db.products _ hwf
          · intro p2 hp2 htr2
            dsimp only at hp2
            obtain ⟨p, hpmem, hpeq⟩ := List.mem_map.mp hp2
            have htrp : p.trackInventory = true := by
              rw [← hpeq] at htr2
              exact htr2
            have hguard := hsafe p hpmem htrp
            unfold liveReservedSum
            dsimp only
            rw [← hpeq]
            dsimp only
            unfold orderQtyFor at hguard
            unfold liveReservedSum at hguard
            rw [hoid]
            omega
        · simp only [pay_order, hfo]
          rw [if_neg (by simp [hst]), if_neg hall]
          exact ⟨hwf, hpos, hinv⟩
      · simp only [pay_order, hfo]
        rw [if_pos hst]
        exact ⟨hwf, hpos, hinv⟩

/-- Counterexample to C1: from `sampleDb` (tracked product 1, on-hand 5, user
3's cart holding five units) the core-operation sequence reserve 5 units
(live for 30 minutes), checkout, pay reaches a state where the live
reservation quantities still sum to 5 while 5 units have been sold against the
initial on-hand count of 5: live (5) + sold (5) = 10 > 5. Equivalently, the
live reservation sum 5 exceeds the recorded on-hand stock 0, breaking
`StockInvariant`. `pay_order` validates each item against raw on-hand stock
and ignores live reservations, so the claimed invariant fails on states
reachable by the listed operations. -/
theorem stock_invariant_broken_by_pay_under_reservation :
    (liveReservedSum
        (runOps sampleDb [.reserve 1 77 5 30, .checkout 3, .pay 3 102]) 1 = 5) ∧
    ((findProduct sampleDb 1).map (fun p => p.stock) = some 5) ∧
    ((findProduct
        (runOps sampleDb [.reserve 1 77 5 30, .checkout 3, .pay 3 102]) 1).map
        (fun p => p.stock) = some 0) ∧
    ¬ StockInvariant
        (runOps sampleDb [.reserve 1 77 5 30, .checkout 3, .pay 3 102]) := by
  exact ⟨by decide, by decide, by decide, by decide⟩

/-- C1 (amended): for every state whose product ids are unique and whose
stored reservations all have positive quantities, and in which every tracked
product's live reserved quantity fits within its on-hand stock, every
sequence of core operations (reserve, cancel, cleanup, checkout, pay, webhook
reconciliation, passage of time) preserves that invariant — provided each
reserve in the sequence requests a positive quantity and each pay is applied
only when, for every tracked product, the order's item quantities plus the
live reservations fit within the on-hand stock (i.e. the order fits within
reservation-adjusted availability). Since each sale decrements on-hand stock
by the sold quantity at sale time and no other listed operation resets
on-hand stock, `live + sold since last reset ≤ stock at the reset` is
equivalent to the preserved `StockInvariant`. Without the pay-side condition
the invariant is false (see the counterexample): the code checks raw stock
only. -/
theorem stock_invariant_along_guarded_runs (db : Db) (ops : List CoreOp)
    (hwf : ProductsWF db) (hpos : ReservationsPositive db)
    (hinv : StockInvariant db) (hsafe : SafeOps db ops) :
    StockInvariant (runOps db ops) := by
  induction ops generalizing db with
  | nil => exact hinv
  | cons op rest ih =>
    obtain ⟨h1, h2⟩ := hsafe
    obtain ⟨hwf2, hpos2, hinv2⟩ := applyOp_preserves db op hwf hpos hinv h1
    exact ih (applyOp db op) hwf2 hpos2 hinv2 h2

/-- Witness for the amended C1: a guarded run over `sampleDb` — reserve five
units, cancel a missing reservation, sweep expiries, let 40 minutes pass —
lands in a state still satisfying the stock invariant. -/
theorem stock_invariant_along_guarded_runs_witness :
    StockInvariant (runOps sampleDb
      [.reserve 1 77 5 30, .cancel 55, .cleanupExpired, .tick 40]) :=
  stock_invariant_along_guarded_runs sampleDb
    [.reserve 1 77 5 30, .cancel 55, .cleanupExpired, .tick 40]
    (by decide) (by decide) (by decide) (by decide)

end Femite
